import Mathlib

/-!
A shallow embedding, in Lean 4, of the MySQL static-analysis driver scripts
(`scripts/static_analysis.py`, `scripts/static_analysis_inc/helpers.py`,
`scripts/static_analysis_inc/tool_clang_tidy.py`), together with theorems
checking the repository's specification against the embedded code.

Modelling conventions, used throughout:
* Python strings are modelled as `List Char` (`PyStr`); Python `None` as an
  `Option`; Python truthiness of an optional string (`None` and `""` are
  falsy) as `pyTruthy`.
* The filesystem, git queries and subprocess behaviour are modelled as
  explicit oracles (function-valued fields of `Env`, or an `ExecOutcome`
  argument standing for what a spawned subprocess does).
* Clock readings (`time.time()`, a float) are modelled as rationals; Python
  `int()` truncation toward zero is `pyTrunc`.
* An uncaught Python exception is modelled as a distinguished result
  (`Option.none`, or `PyResult.exception`); `sys.exit(code)` is
  `PyResult.exitWith code`.
-/

namespace StaticAnalysis

/-- Python strings are modelled as lists of characters. -/
abbrev PyStr := List Char

/-! ## `helpers.batched` (helpers.py lines 210-218) -/

/-- Embedding of `helpers.batched`: batch data into lists of length `n`,
the last batch possibly shorter.  `list(itertools.islice(it, n))` takes the
next `n` elements of the iterator (`take n` of what is left, leaving
`drop n`); the generator returns on the first empty batch, so for `n = 0`
nothing is yielded at all. -/
def batched {α : Type} (n : Nat) : List α → List (List α)
  | [] => []
  | x :: xs =>
    if _h : n = 0 then []
    else ((x :: xs).take n) :: batched n ((x :: xs).drop n)
termination_by l => l.length
decreasing_by
  simp only [List.length_drop, List.length_cons]
  omega

theorem batched_nil {α : Type} (n : Nat) : batched n ([] : List α) = [] := by
  simp [batched]

theorem batched_cons {α : Type} {n : Nat} (hn : n ≠ 0) (x : α) (xs : List α) :
    batched n (x :: xs) = ((x :: xs).take n) :: batched n ((x :: xs).drop n) := by
  rw [batched, dif_neg hn]

theorem batched_eq_nil_iff {α : Type} {n : Nat} (hn : 1 ≤ n) (l : List α) :
    batched n l = [] ↔ l = [] := by
  cases l with
  | nil => simp [batched]
  | cons x xs => rw [batched_cons (by omega) x xs]; simp

theorem batched_flatten {α : Type} (n : Nat) (l : List α) (hn : 1 ≤ n) :
    (batched n l).flatten = l := by
  induction l using batched.induct n with
  | case1 => simp [batched]
  | case2 x xs h => omega
  | case3 x xs h ih =>
    rw [batched_cons h x xs, List.flatten_cons, ih, List.take_append_drop]

theorem batched_length {α : Type} (n : Nat) (l : List α) (hn : 1 ≤ n) :
    (batched n l).length = (l.length + n - 1) / n := by
  induction l using batched.induct n with
  | case2 x xs h => omega
  | case1 =>
    rw [batched_nil]
    simp only [List.length_nil]
    rw [Nat.div_eq_of_lt (by omega)]
  | case3 x xs h ih =>
    rw [batched_cons h x xs]
    simp only [List.length_cons, List.length_drop] at ih ⊢
    rw [ih]
    have h1 : xs.length + 1 + n - 1 = xs.length + n := by omega
    rw [h1, Nat.add_div_right _ (by omega)]
    rcases Nat.lt_or_ge xs.length n with hlt | hge
    · have h2 : xs.length + 1 - n = 0 := by omega
      rw [h2]
      simp only [Nat.zero_add]
      rw [Nat.div_eq_of_lt (by omega), Nat.div_eq_of_lt (by omega)]
    · have h2 : xs.length + 1 - n + n - 1 = (xs.length - n) + n := by omega
      rw [h2, Nat.add_div_right _ (by omega)]
      have h3 : xs.length = (xs.length - n) + n := by omega
      rw [h3, Nat.add_div_right _ (by omega)]
      have h4 : xs.length - n + n - n = xs.length - n := by omega
      rw [h4]

theorem batched_mem_ne_nil {α : Type} (n : Nat) (l : List α) (hn : 1 ≤ n) :
    ∀ b ∈ batched n l, b ≠ [] := by
  induction l using batched.induct n with
  | case1 => simp [batched]
  | case2 x xs h => omega
  | case3 x xs h ih =>
    rw [batched_cons h x xs]
    intro b hb
    rcases List.mem_cons.1 hb with rfl | hb2
    · obtain ⟨m, rfl⟩ := Nat.exists_eq_succ_of_ne_zero h
      simp [List.take_succ_cons]
    · exact ih b hb2

theorem batched_middle_length {α : Type} (n : Nat) (l : List α) (hn : 1 ≤ n) :
    ∀ pre b post, batched n l = pre ++ b :: post → post ≠ [] → b.length = n := by
  induction l using batched.induct n with
  | case2 x xs h => omega
  | case1 =>
    intro pre b post heq
    rw [batched_nil] at heq
    exact absurd heq.symm (by simp)
  | case3 x xs h ih =>
    intro pre b post heq hpost
    rw [batched_cons h x xs] at heq
    cases pre with
    | nil =>
      simp only [List.nil_append, List.cons.injEq] at heq
      obtain ⟨rfl, htail⟩ := heq
      have hne : (x :: xs).drop n ≠ [] := by
        intro hdrop
        rw [hdrop, batched_nil] at htail
        exact hpost htail.symm
      have hlen : n < xs.length + 1 := by
        by_contra hge
        exact hne (List.drop_eq_nil_of_le (by simpa using Nat.le_of_not_lt hge))
      simp only [List.length_take, List.length_cons]
      omega
    | cons p pre2 =>
      simp only [List.cons_append, List.cons.injEq] at heq
      exact ih pre2 b post heq.2 hpost

/-- **C2.** For every finite list of length `N` and batch size `B ≥ 1`,
`batched` yields exactly `⌈N/B⌉ = (N + B - 1) / B` batches; every batch
except possibly the last has exactly `B` elements; every yielded batch is
non-empty; and the concatenation of the batches in yield order equals the
original list. -/
theorem batched_partition_spec {α : Type} (l : List α) (B : Nat) (hB : 1 ≤ B) :
    (batched B l).length = (l.length + B - 1) / B ∧
    (batched B l).flatten = l ∧
    (∀ pre b post, batched B l = pre ++ b :: post → post ≠ [] → b.length = B) ∧
    (∀ b ∈ batched B l, b ≠ []) :=
  ⟨batched_length B l hB, batched_flatten B l hB,
   batched_middle_length B l hB, batched_mem_ne_nil B l hB⟩

/-- Witness for C2 at the concrete input `[0, 1, 2]`, batch size `2`. -/
theorem batched_partition_spec_witness :
    (batched 2 [0, 1, 2]).length = 2 ∧ (batched 2 [0, 1, 2]).flatten = [0, 1, 2] := by
  constructor
  · rw [(batched_partition_spec [0, 1, 2] 2 (by omega)).1]; decide
  · exact (batched_partition_spec [0, 1, 2] 2 (by omega)).2.1

/-! ## `helpers.list_sources` (helpers.py lines 185-207) -/

/-- Python substring containment, `needle in hay`. -/
def containsSub (needle : PyStr) : PyStr → Bool
  | [] => needle.isEmpty
  | c :: rest => needle.isPrefixOf (c :: rest) || containsSub needle rest

/-- The literal `'/extra/'` third-party path segment (helpers.py:196). -/
def extraSegment : PyStr := "/extra/".toList

/-- Python truthiness of an optional string: `None` and `""` are falsy. -/
def pyTruthy : Option PyStr → Bool
  | none => false
  | some s => !s.isEmpty

/-- The filter the loop body of `helpers.list_sources` applies to each
compilation-database entry (helpers.py:192-200): the entry is kept unless
one of the three `continue`s fires — scan-root given but the path does not
start with it; the path contains `'/extra/'`; the path is not an existing
file.  `isfile` models `os.path.isfile`. -/
def sourceKept (isfile : PyStr → Bool) (scan_root : Option PyStr) (path : PyStr) : Bool :=
  if pyTruthy scan_root && !((scan_root.getD []).isPrefixOf path) then false
  else if containsSub extraSegment path then false
  else if !(isfile path) then false
  else true

/-- `list(dict.fromkeys(files))` (helpers.py:204): remove duplicates,
keeping the first occurrence of each element, preserving order. -/
def dedupFirst {α : Type} [DecidableEq α] : List α → List α
  | [] => []
  | x :: xs => x :: dedupFirst (xs.filter fun y => y ≠ x)
termination_by l => l.length
decreasing_by
  exact Nat.lt_succ_of_le (List.length_filter_le _ _)

/-- Embedding of `helpers.list_sources`: `db` holds the `"file"` field of
each entry of `compile_commands.json`, in file order.  The loop appends the
entries passing `sourceKept`, then duplicates are removed keeping first
occurrences. -/
def list_sources (isfile : PyStr → Bool) (db : List PyStr) (scan_root : Option PyStr) : List PyStr :=
  dedupFirst (db.filter (sourceKept isfile scan_root))

/-- Index of the first occurrence of `a` in `l` (`l.length` when absent). -/
def firstIdx {α : Type} [DecidableEq α] (a : α) : List α → Nat
  | [] => 0
  | x :: xs => if x = a then 0 else firstIdx a xs + 1

theorem firstIdx_cons_self {α : Type} [DecidableEq α] (a : α) (l : List α) :
    firstIdx a (a :: l) = 0 := by
  simp [firstIdx]

theorem firstIdx_cons_ne {α : Type} [DecidableEq α] {x a : α} (h : x ≠ a) (l : List α) :
    firstIdx a (x :: l) = firstIdx a l + 1 := by
  simp [firstIdx, h]

theorem mem_dedupFirst {α : Type} [DecidableEq α] (a : α) (l : List α) :
    a ∈ dedupFirst l ↔ a ∈ l := by
  induction l using dedupFirst.induct with
  | case1 => simp [dedupFirst]
  | case2 x xs ih =>
    rw [dedupFirst]
    simp only [List.mem_cons, ih, List.mem_filter, decide_eq_true_eq]
    constructor
    · rintro (rfl | ⟨h2, _⟩)
      · exact Or.inl rfl
      · exact Or.inr h2
    · rintro (rfl | h2)
      · exact Or.inl rfl
      · rcases eq_or_ne a x with rfl | hax
        · exact Or.inl rfl
        · exact Or.inr ⟨h2, hax⟩

theorem nodup_dedupFirst {α : Type} [DecidableEq α] (l : List α) :
    (dedupFirst l).Nodup := by
  induction l using dedupFirst.induct with
  | case1 => simp [dedupFirst]
  | case2 x xs ih =>
    rw [dedupFirst]
    refine List.nodup_cons.2 ⟨?_, ih⟩
    intro hx
    have hmem := (mem_dedupFirst x _).1 hx
    rw [List.mem_filter] at hmem
    simp at hmem

theorem firstIdx_filter_lt {α : Type} [DecidableEq α] (p : α → Bool) (l : List α) :
    ∀ a b, a ∈ l.filter p → b ∈ l.filter p →
      firstIdx a (l.filter p) < firstIdx b (l.filter p) →
      firstIdx a l < firstIdx b l := by
  induction l with
  | nil => intro a b ha; simp at ha
  | cons c t ih =>
    intro a b ha hb hlt
    by_cases hc : p c
    · rw [List.filter_cons_of_pos hc] at ha hb hlt
      rcases eq_or_ne c a with rfl | hca
      · rw [firstIdx_cons_self] at hlt ⊢
        have hcb : c ≠ b := by
          rintro rfl
          rw [firstIdx_cons_self] at hlt
          omega
        rw [firstIdx_cons_ne hcb] at hlt ⊢
        omega
      · rw [firstIdx_cons_ne hca] at hlt ⊢
        rcases eq_or_ne c b with rfl | hcb
        · rw [firstIdx_cons_self] at hlt
          omega
        · rw [firstIdx_cons_ne hcb] at hlt ⊢
          have ha2 : a ∈ t.filter p := by
            rcases List.mem_cons.1 ha with rfl | h2
            · exact absurd rfl hca
            · exact h2
          have hb2 : b ∈ t.filter p := by
            rcases List.mem_cons.1 hb with rfl | h2
            · exact absurd rfl hcb
            · exact h2
          have := ih a b ha2 hb2 (by omega)
          omega
    · rw [List.filter_cons_of_neg hc] at ha hb hlt
      have hpa : p a = true := (List.mem_filter.1 ha).2
      have hpb : p b = true := (List.mem_filter.1 hb).2
      have hca : c ≠ a := by rintro rfl; rw [hpa] at hc; exact hc rfl
      have hcb : c ≠ b := by rintro rfl; rw [hpb] at hc; exact hc rfl
      rw [firstIdx_cons_ne hca, firstIdx_cons_ne hcb]
      have := ih a b ha hb hlt
      omega

theorem pairwise_firstIdx_dedupFirst {α : Type} [DecidableEq α] (l : List α) :
    (dedupFirst l).Pairwise (fun a b => firstIdx a l < firstIdx b l) := by
  induction l using dedupFirst.induct with
  | case1 => simp [dedupFirst]
  | case2 x xs ih =>
    rw [dedupFirst]
    refine List.pairwise_cons.2 ⟨?_, ?_⟩
    · intro b hb
      have hmem := (mem_dedupFirst b _).1 hb
      rw [List.mem_filter] at hmem
      have hbx : b ≠ x := by simpa using hmem.2
      rw [firstIdx_cons_self, firstIdx_cons_ne (Ne.symm hbx)]
      omega
    · refine ih.imp_of_mem ?_
      intro a b ha hb hab
      have ha2 := (mem_dedupFirst a _).1 ha
      have hb2 := (mem_dedupFirst b _).1 hb
      have hax : a ≠ x := by
        have := (List.mem_filter.1 ha2).2
        simpa using this
      have hbx : b ≠ x := by
        have := (List.mem_filter.1 hb2).2
        simpa using this
      have hxs := firstIdx_filter_lt (fun y => decide (y ≠ x)) xs a b ha2 hb2 hab
      rw [firstIdx_cons_ne (Ne.symm hax), firstIdx_cons_ne (Ne.symm hbx)]
      omega

theorem pairwise_firstIdx_dedupFirst_filter {α : Type} [DecidableEq α]
    (p : α → Bool) (l : List α) :
    (dedupFirst (l.filter p)).Pairwise (fun a b => firstIdx a l < firstIdx b l) := by
  refine (pairwise_firstIdx_dedupFirst (l.filter p)).imp_of_mem ?_
  intro a b ha hb hab
  exact firstIdx_filter_lt p l a b ((mem_dedupFirst _ _).1 ha)
    ((mem_dedupFirst _ _).1 hb) hab

theorem nil_isPrefixOf_eq_true (p : PyStr) : ([] : PyStr).isPrefixOf p = true := by
  cases p <;> rfl

theorem sourceKept_eq (isfile : PyStr → Bool) (scan_root : Option PyStr) (p : PyStr) :
    sourceKept isfile scan_root p =
      (!(pyTruthy scan_root && !((scan_root.getD []).isPrefixOf p)) &&
       !(containsSub extraSegment p) && isfile p) := by
  unfold sourceKept
  by_cases h1 : pyTruthy scan_root && !((scan_root.getD []).isPrefixOf p) <;>
    by_cases h2 : containsSub extraSegment p <;>
    by_cases h3 : isfile p <;>
    simp [h1, h2, h3]

theorem sourceKept_eq_true (isfile : PyStr → Bool) (scan_root : Option PyStr) (p : PyStr) :
    sourceKept isfile scan_root p = true ↔
      (∀ r : PyStr, scan_root = some r → r.isPrefixOf p = true) ∧
      containsSub extraSegment p = false ∧ isfile p = true := by
  rw [sourceKept_eq]
  cases scan_root with
  | none => simp [pyTruthy]
  | some r =>
    cases r with
    | nil => simp [pyTruthy, nil_isPrefixOf_eq_true p, List.isEmpty]
    | cons c t =>
      simp [pyTruthy, List.isEmpty]
      tauto

/-- **C1.** For every compilation-database contents, scan-root filter and
filesystem state, `list_sources` outputs exactly the database file paths
that (i) start with the scan-root prefix when one is given, (ii) do not
contain the segment `'/extra/'`, and (iii) name an existing file; each
qualifying path appears exactly once (`Nodup`), ordered by first occurrence
in the database. -/
theorem list_sources_spec (isfile : PyStr → Bool) (db : List PyStr)
    (scan_root : Option PyStr) :
    (list_sources isfile db scan_root).Nodup ∧
    (∀ p : PyStr, p ∈ list_sources isfile db scan_root ↔
      p ∈ db ∧ (∀ r : PyStr, scan_root = some r → r.isPrefixOf p = true) ∧
      containsSub extraSegment p = false ∧ isfile p = true) ∧
    (list_sources isfile db scan_root).Pairwise
      (fun a b => firstIdx a db < firstIdx b db) := by
  refine ⟨nodup_dedupFirst _, ?_, pairwise_firstIdx_dedupFirst_filter _ db⟩
  intro p
  rw [list_sources, mem_dedupFirst, List.mem_filter, sourceKept_eq_true]

/-- Witness for C1: a concrete database with a duplicate, an `/extra/` path
and everything on disk. -/
theorem list_sources_spec_witness :
    ("/src/a.cc".toList ∈ list_sources (fun _ => true)
      ["/src/a.cc".toList, "/src/extra/t.cc".toList, "/src/a.cc".toList] none) :=
  ((list_sources_spec (fun _ => true)
      ["/src/a.cc".toList, "/src/extra/t.cc".toList, "/src/a.cc".toList] none).2.1
    ("/src/a.cc".toList)).2
    (by
      refine ⟨by simp, ?_, by decide, rfl⟩
      intro r hr
      cases hr)

/-! ## The progress tracker (helpers.py lines 34-36 and 235-273) -/

/-- The module-level mutable state of `helpers.py` used by the progress
tracker: `PROCESSED_FILES`, `TOTAL_FILES`, `START_TIME` (lines 34-36).
Clock readings are modelled as rationals. -/
structure Progress where
  processed : Int
  total : Int
  start : ℚ
deriving DecidableEq

/-- The initial values of the module globals (helpers.py:34-36). -/
def initialProgress : Progress := ⟨0, 0, 0⟩

/-- `helpers.progress_start` (helpers.py:235-238): records the start time
and the total.  Note that it does not touch `PROCESSED_FILES`.  `now`
models the `time.time()` reading. -/
def progress_start (total : Int) (now : ℚ) (s : Progress) : Progress :=
  { s with start := now, total := total }

/-- `helpers.progress_update` (helpers.py:241-244): adds the increment to
`PROCESSED_FILES`. -/
def progress_update (increment : Int) (s : Progress) : Progress :=
  { s with processed := s.processed + increment }

/-- Python `int(x)` applied to a float/rational: truncation toward zero. -/
def pyTrunc (q : ℚ) : Int :=
  if 0 ≤ q then q.num.fdiv q.den else -((-q).num.fdiv (-q).den)

/-- What one `helpers.progress_report` call (helpers.py:247-264) writes:
the full progress line (processed, total, elapsed seconds, estimated
remaining seconds — the percentage is derived from processed and total and
is omitted here), the `0% (0/total files)` line, or nothing. -/
inductive Report where
  | progressLine (processed total elapsed remain : Int)
  | zeroLine (total : Int)
  | nothing
deriving DecidableEq

/-- Embedding of `helpers.progress_report`: `elapsed = int(now - START_TIME)`,
`per_file = elapsed / PROCESSED_FILES`, and
`remain = int((TOTAL_FILES - PROCESSED_FILES) * per_file)`. -/
def progress_report (now : ℚ) (s : Progress) : Report :=
  if 0 < s.total ∧ 0 < s.processed then
    let time_elapsed : Int := pyTrunc (now - s.start)
    let time_per_file : ℚ := (time_elapsed : ℚ) / (s.processed : ℚ)
    let time_remain : Int := pyTrunc (((s.total - s.processed : Int) : ℚ) * time_per_file)
    .progressLine s.processed s.total time_elapsed time_remain
  else if 0 < s.total then .zeroLine s.total
  else .nothing

/-- The processed count a report line shows, when it shows one. -/
def Report.processedShown : Report → Option Int
  | .progressLine p _ _ _ => some p
  | .zeroLine _ => some 0
  | .nothing => none

/-- The total count a report line shows, when it shows one. -/
def Report.totalShown : Report → Option Int
  | .progressLine _ t _ _ => some t
  | .zeroLine t => some t
  | .nothing => none

/-- The report is a full progress line with a non-negative remaining-time
estimate. -/
def Report.remainNonneg : Report → Prop
  | .progressLine _ _ _ r => 0 ≤ r
  | .zeroLine _ => False
  | .nothing => False

theorem pyTrunc_nonneg {q : ℚ} (hq : 0 ≤ q) : 0 ≤ pyTrunc q := by
  rw [pyTrunc, if_pos hq]
  exact Int.fdiv_nonneg (Rat.num_nonneg.2 hq) (Int.natCast_nonneg _)

/-- **C3, counterexample.**  `progress_start` does not reset the processed
counter: from a prior state with `PROCESSED_FILES = 5`, after
`progress_start 10` and two `progress_update 3` calls the report shows
processed = 11, not 6. -/
theorem progress_start_no_reset_counterexample :
    (progress_report 1 (progress_update 3 (progress_update 3
        (progress_start 10 0 ⟨5, 0, 0⟩)))).processedShown = some 11 ∧
    (progress_report 1 (progress_update 3 (progress_update 3
        (progress_start 10 0 ⟨5, 0, 0⟩)))).processedShown ≠ some 6 := by
  constructor
  · rfl
  · intro h
    rw [show progress_update 3 (progress_update 3 (progress_start 10 0 ⟨5, 0, 0⟩)) =
        ⟨11, 10, 0⟩ from rfl] at h
    rw [progress_report, if_pos (by norm_num)] at h
    simp [Report.processedShown] at h

/-- **C3 (amended).**  `progress_start total` records the start time and
the total but leaves the processed counter unchanged; when the prior
processed count is 0 (as it is at module initialisation), after
`progress_start 10` and two `progress_update 3` calls a report at any
later time shows processed = 6 of total = 10 with a non-negative
estimated remaining time. -/
theorem progress_sequence_amended (s : Progress) (t1 t2 : ℚ)
    (h0 : s.processed = 0) (ht : t1 ≤ t2) :
    (progress_report t2 (progress_update 3 (progress_update 3
        (progress_start 10 t1 s)))).processedShown = some 6 ∧
    (progress_report t2 (progress_update 3 (progress_update 3
        (progress_start 10 t1 s)))).totalShown = some 10 ∧
    (progress_report t2 (progress_update 3 (progress_update 3
        (progress_start 10 t1 s)))).remainNonneg := by
  have hstate : progress_update 3 (progress_update 3 (progress_start 10 t1 s)) =
      ⟨6, 10, t1⟩ := by
    show Progress.mk (s.processed + 3 + 3) 10 t1 = ⟨6, 10, t1⟩
    rw [h0]
    norm_num
  rw [hstate, progress_report, if_pos (by norm_num)]
  refine ⟨rfl, rfl, ?_⟩
  show 0 ≤ pyTrunc (((10 - 6 : Int) : ℚ) * ((pyTrunc (t2 - t1) : ℚ) / ((6 : Int) : ℚ)))
  have he : (0 : Int) ≤ pyTrunc (t2 - t1) := pyTrunc_nonneg (by linarith)
  apply pyTrunc_nonneg
  have he2 : (0 : ℚ) ≤ (pyTrunc (t2 - t1) : ℚ) := by exact_mod_cast he
  have h4 : (0 : ℚ) ≤ ((10 - 6 : Int) : ℚ) := by norm_num
  exact mul_nonneg h4 (div_nonneg he2 (by norm_num))

/-- Witness for the amended C3, from the initial module state at concrete
times 0 and 2. -/
theorem progress_sequence_amended_witness :
    (progress_report 2 (progress_update 3 (progress_update 3
        (progress_start 10 0 initialProgress)))).processedShown = some 6 ∧
    (progress_report 2 (progress_update 3 (progress_update 3
        (progress_start 10 0 initialProgress)))).totalShown = some 10 ∧
    (progress_report 2 (progress_update 3 (progress_update 3
        (progress_start 10 0 initialProgress)))).remainNonneg :=
  progress_sequence_amended initialProgress 0 2 rfl (by norm_num)

/-! ## `helpers.shell_execute` (helpers.py lines 221-232) and
`helpers.verbose_log` (helpers.py lines 41-43) -/

/-- What one spawned subprocess does: complete within the 20-minute
timeout with captured outputs and an exit code, or exceed it. -/
inductive ExecOutcome where
  | completed (out err : PyStr) (rc : Int)
  | timedOut

/-- Embedding of `helpers.shell_execute`: on normal completion the captured
`(process.stdout, process.stderr, process.returncode)`; on
`subprocess.TimeoutExpired` the sentinel `(None, None, 1)`. -/
def shell_execute : ExecOutcome → Option PyStr × Option PyStr × Int
  | .completed out err rc => (some out, some err, rc)
  | .timedOut => (none, none, 1)

/-- `helpers.verbose_log(message, force)`: whether the message is written
to stderr, given the `VERBOSE` flag. -/
def verbose_log_emits (verbose force : Bool) : Bool := verbose || force

/-- Whether `shell_execute` writes its timeout diagnostic to stderr: only
the timeout branch logs, and it calls `verbose_log(..., force := True)`
(helpers.py:230). -/
def shell_execute_logs_timeout (verbose : Bool) : ExecOutcome → Bool
  | .completed _ _ _ => false
  | .timedOut => verbose_log_emits verbose true

/-- **C6.** On timeout `shell_execute` returns the sentinel
`(None, None, 1)` — absent (falsy/empty) outputs and the non-zero
synthetic exit code 1 — and logs its diagnostic on stderr whatever the
verbosity setting; on completion within the timeout it returns the
captured `(stdout, stderr, exit_code)` and logs nothing. -/
theorem shell_execute_timeout_spec (verbose : Bool) :
    shell_execute .timedOut = (none, none, 1) ∧
    ((shell_execute .timedOut).2.2 ≠ 0) ∧
    shell_execute_logs_timeout verbose .timedOut = true ∧
    (∀ out err rc, shell_execute (.completed out err rc) = (some out, some err, rc) ∧
      shell_execute_logs_timeout verbose (.completed out err rc) = false) := by
  refine ⟨rfl, by norm_num [shell_execute], ?_, fun out err rc => ⟨rfl, rfl⟩⟩
  simp [shell_execute_logs_timeout, verbose_log_emits]

/-! ## `tool_clang_tidy.run_tidy` (tool_clang_tidy.py lines 39-58) -/

/-- The diagnostic string `run_tidy` looks for in stderr
(tool_clang_tidy.py:51, 55). -/
def noChecksDiag : PyStr := "Error: no checks enabled".toList

/-- stderr contains the `'Error: no checks enabled'` diagnostic. -/
def errHasDiag : Option PyStr → Bool
  | none => false
  | some e => containsSub noChecksDiag e

/-- `run_tidy` prints the analyzer's stdout iff
`not err or not 'Error: no checks enabled' in err` (tool_clang_tidy.py:51).
The containment test is short-circuited away when `err` is falsy, so the
`getD` default is never the value actually tested. -/
def run_tidy_prints_stdout (err : Option PyStr) : Bool :=
  !(pyTruthy err) || !(containsSub noChecksDiag (err.getD []))

/-- `run_tidy` prints the analyzer's stderr iff
`rc != 0 and err and not out and not 'Error: no checks enabled' in err`
(tool_clang_tidy.py:55). -/
def run_tidy_prints_stderr (out err : Option PyStr) (rc : Int) : Bool :=
  (rc != 0) && pyTruthy err && !(pyTruthy out) &&
    !(containsSub noChecksDiag (err.getD []))

theorem errHasDiag_pyTruthy {err : Option PyStr} (h : errHasDiag err = true) :
    pyTruthy err = true := by
  cases err with
  | none => exact absurd h (by simp [errHasDiag])
  | some e =>
    cases e with
    | nil => exact absurd h (by decide)
    | cons c t => rfl

/-- **C5.** For every analyzer invocation result: stdout is printed exactly
unless stderr contains the `'Error: no checks enabled'` diagnostic; and
stderr is printed only when the exit code is non-zero, stdout is falsy
(empty, or the `None` timeout sentinel) and the diagnostic is absent from
stderr. -/
theorem run_tidy_output_policy (out err : Option PyStr) (rc : Int) :
    (run_tidy_prints_stdout err = true ↔ errHasDiag err = false) ∧
    (run_tidy_prints_stderr out err rc = true →
      rc ≠ 0 ∧ pyTruthy out = false ∧ errHasDiag err = false) := by
  constructor
  · cases err with
    | none => simp [run_tidy_prints_stdout, errHasDiag, pyTruthy]
    | some e =>
      cases e with
      | nil => decide
      | cons c t =>
        simp [run_tidy_prints_stdout, errHasDiag, pyTruthy, List.isEmpty]
  · intro h
    rw [run_tidy_prints_stderr] at h
    simp only [Bool.and_eq_true, bne_iff_ne, Bool.not_eq_true'] at h
    obtain ⟨⟨⟨hrc, herr⟩, hout⟩, hdiag⟩ := h
    refine ⟨hrc, hout, ?_⟩
    cases err with
    | none => rfl
    | some e => simpa [errHasDiag] using hdiag

/-- Witness for C5 at a concrete result (timeout sentinel): stdout is
printed, the diagnostic being absent from the absent stderr. -/
theorem run_tidy_output_policy_witness : run_tidy_prints_stdout none = true :=
  ((run_tidy_output_policy none none 1).1).mpr (by decide)

/-! ## `tool_clang_tidy.scan_tree` (tool_clang_tidy.py lines 61-86) -/

/-- `TIDY_BATCH` (tool_clang_tidy.py:33). -/
def TIDY_BATCH : Nat := 2

/-- The effect of one `run_tidy` call (tool_clang_tidy.py:39-58) on the
progress state, given the `(stdout, stderr, returncode)` triple its
`shell_execute` call produced.  Whatever the triple — non-zero exit code,
diagnostic output, or the `(None, None, 1)` timeout sentinel — `run_tidy`
only prints (as `run_tidy_prints_stdout` / `run_tidy_prints_stderr`
describe), then unconditionally updates the progress counter by the batch
length and reports; it has no raise, exit or abort path. -/
def run_tidy_step (_res : Option PyStr × Option PyStr × Int) (files : List PyStr)
    (s : Progress) : Progress :=
  progress_update (files.length : Int) s

/-- Running `run_tidy` over a list of batches, each batch once (the thread
pool of `scan_tree` maps `run_tidy` over every batch exactly once;
`outcomeOf` gives each batch's subprocess result). -/
def runBatches (outcomeOf : List PyStr → Option PyStr × Option PyStr × Int)
    (bs : List (List PyStr)) (s : Progress) : Progress :=
  bs.foldl (fun st b => run_tidy_step (outcomeOf b) b st) s

/-- Embedding of `tool_clang_tidy.scan_tree`, entered in progress state
`s0`: list the sources, `progress_start` with their count, run `run_tidy`
on every batch of `TIDY_BATCH` files, and return normally (second
component: the contribution of `scan_tree` to the process exit status,
0 because it neither raises nor calls `sys.exit` outside the
`KeyboardInterrupt` handler, which is not modelled).  `behaviour` gives
each batch command's subprocess outcome. -/
def scan_tree (behaviour : List PyStr → ExecOutcome) (isfile : PyStr → Bool)
    (db : List PyStr) (scan_root : Option PyStr) (t0 : ℚ) (s0 : Progress) :
    Progress × Int :=
  let files := list_sources isfile db scan_root
  let s1 := progress_start (files.length : Int) t0 s0
  (runBatches (fun b => shell_execute (behaviour b)) (batched TIDY_BATCH files) s1, 0)

theorem runBatches_processed
    (outcomeOf : List PyStr → Option PyStr × Option PyStr × Int)
    (bs : List (List PyStr)) :
    ∀ s : Progress, (runBatches outcomeOf bs s).processed =
      s.processed + (((bs.map List.length).sum : Nat) : Int) := by
  induction bs with
  | nil => intro s; simp [runBatches]
  | cons b t ih =>
    intro s
    show (runBatches outcomeOf t (run_tidy_step (outcomeOf b) b s)).processed = _
    rw [ih]
    simp only [run_tidy_step, progress_update, List.map_cons, List.sum_cons]
    push_cast
    ring

theorem runBatches_total
    (outcomeOf : List PyStr → Option PyStr × Option PyStr × Int)
    (bs : List (List PyStr)) :
    ∀ s : Progress, (runBatches outcomeOf bs s).total = s.total := by
  induction bs with
  | nil => intro s; rfl
  | cons b t ih =>
    intro s
    show (runBatches outcomeOf t (run_tidy_step (outcomeOf b) b s)).total = _
    rw [ih]
    rfl

/-- **C7.** In tree mode, whatever each batch's analyzer invocation does —
exit non-zero, produce diagnostics, or time out — the run is not aborted:
every batch still updates the progress counter, all batches are processed
(the final processed count equals the number of discovered files), and the
exit-status contribution of `scan_tree` is 0, unaffected by per-batch
failures or timeouts. -/
theorem scan_tree_batch_failures_nonfatal
    (behaviour : List PyStr → ExecOutcome) (isfile : PyStr → Bool)
    (db : List PyStr) (scan_root : Option PyStr) (t0 : ℚ) :
    (scan_tree behaviour isfile db scan_root t0 initialProgress).2 = 0 ∧
    (scan_tree behaviour isfile db scan_root t0 initialProgress).1.processed =
      ((list_sources isfile db scan_root).length : Int) := by
  refine ⟨rfl, ?_⟩
  show (runBatches _ (batched TIDY_BATCH (list_sources isfile db scan_root))
    (progress_start _ t0 initialProgress)).processed = _
  rw [runBatches_processed]
  have hsum : ((batched TIDY_BATCH (list_sources isfile db scan_root)).map
      List.length).sum = (list_sources isfile db scan_root).length := by
    rw [← List.length_flatten, batched_flatten _ _ (by norm_num [TIDY_BATCH])]
  rw [hsum]
  show (0 : Int) + _ = _
  ring

theorem sum_take_le_sum (M : List Nat) : ∀ k : Nat, (M.take k).sum ≤ M.sum := by
  induction M with
  | nil => intro k; simp
  | cons x t ih =>
    intro k
    cases k with
    | zero => simp
    | succ m =>
      rw [List.take_succ_cons, List.sum_cons, List.sum_cons]
      exact Nat.add_le_add_left (ih m) x

theorem sum_take_mono (M : List Nat) : ∀ k : Nat, (M.take k).sum ≤ (M.take (k + 1)).sum := by
  induction M with
  | nil => intro k; simp
  | cons x t ih =>
    intro k
    cases k with
    | zero => simp
    | succ m =>
      rw [List.take_succ_cons, List.take_succ_cons, List.sum_cons, List.sum_cons]
      exact Nat.add_le_add_left (ih m) x

/-- **C9.** Throughout any tree-mode run that begins with
`progress_start` of the discovered file count from the initial module
state (processed = 0), and in which each completed batch calls
`progress_update` with that batch's length — the batches completing in any
order `perm` of the dispatched batch list — the processed count after `k`
completed batches is monotonically non-decreasing in `k`, never exceeds
the total count, and equals the total once all batches are processed. -/
theorem progress_invariant_tree_mode
    (outcomeOf : List PyStr → Option PyStr × Option PyStr × Int)
    (isfile : PyStr → Bool) (db : List PyStr) (scan_root : Option PyStr)
    (t0 : ℚ) (perm : List (List PyStr))
    (hperm : perm.Perm (batched TIDY_BATCH (list_sources isfile db scan_root))) :
    (∀ k : Nat,
      (runBatches outcomeOf (perm.take k)
        (progress_start ((list_sources isfile db scan_root).length : Int) t0
          initialProgress)).processed ≤
      (runBatches outcomeOf (perm.take (k + 1))
        (progress_start ((list_sources isfile db scan_root).length : Int) t0
          initialProgress)).processed) ∧
    (∀ k : Nat,
      (runBatches outcomeOf (perm.take k)
        (progress_start ((list_sources isfile db scan_root).length : Int) t0
          initialProgress)).processed ≤
      (runBatches outcomeOf (perm.take k)
        (progress_start ((list_sources isfile db scan_root).length : Int) t0
          initialProgress)).total) ∧
    (runBatches outcomeOf perm
      (progress_start ((list_sources isfile db scan_root).length : Int) t0
        initialProgress)).processed =
    (runBatches outcomeOf perm
      (progress_start ((list_sources isfile db scan_root).length : Int) t0
        initialProgress)).total := by
  have hsum : (perm.map List.length).sum = (list_sources isfile db scan_root).length := by
    rw [(hperm.map List.length).sum_eq, ← List.length_flatten,
      batched_flatten _ _ (by norm_num [TIDY_BATCH])]
  refine ⟨?_, ?_, ?_⟩
  · intro k
    rw [runBatches_processed, runBatches_processed, List.map_take, List.map_take]
    have := sum_take_mono (perm.map List.length) k
    omega
  · intro k
    rw [runBatches_processed, runBatches_total, List.map_take]
    show _ + _ ≤ (progress_start ((list_sources isfile db scan_root).length : Int) t0
      initialProgress).total
    have h1 := sum_take_le_sum (perm.map List.length) k
    have h2 : (progress_start ((list_sources isfile db scan_root).length : Int) t0
        initialProgress).total = ((list_sources isfile db scan_root).length : Int) := rfl
    rw [h2]
    have h3 : (progress_start ((list_sources isfile db scan_root).length : Int) t0
        initialProgress).processed = 0 := rfl
    rw [h3]
    omega
  · rw [runBatches_processed, runBatches_total]
    show (0 : Int) + _ = _
    rw [hsum]
    have h2 : (progress_start ((list_sources isfile db scan_root).length : Int) t0
        initialProgress).total = ((list_sources isfile db scan_root).length : Int) := rfl
    rw [h2]
    omega

/-- Witness for C9 on the empty run (no sources, no batches). -/
theorem progress_invariant_tree_mode_witness :
    (runBatches (fun _ => (none, none, 1)) []
      (progress_start ((list_sources (fun _ => false) [] none).length : Int) 0
        initialProgress)).processed =
    (runBatches (fun _ => (none, none, 1)) []
      (progress_start ((list_sources (fun _ => false) [] none).length : Int) 0
        initialProgress)).total :=
  (progress_invariant_tree_mode (fun _ => (none, none, 1)) (fun _ => false) [] none 0 []
    (by
      have h1 : list_sources (fun _ => false) [] none = [] := by
        rw [list_sources]
        simp [dedupFirst]
      rw [h1]
      have h2 : batched TIDY_BATCH ([] : List PyStr) = [] := batched_nil _
      rw [h2])).2.2

/-! ## `helpers.get_tidy_major_version` (helpers.py lines 122-140) -/

/-- The suffix of the haystack after the first occurrence of `needle`
(`hay[hay.index(needle) + len(needle):]`), or `none` when `needle` is
absent and `str.index` raises `ValueError`. -/
def afterFirstSub (needle : PyStr) : PyStr → Option PyStr
  | [] => if needle.isEmpty then some [] else none
  | c :: rest =>
    if needle.isPrefixOf (c :: rest) then some ((c :: rest).drop needle.length)
    else afterFirstSub needle rest

/-- The prefix of the haystack before the first occurrence of the
character `c` (`hay[:hay.index(c)]`), or `none` when absent. -/
def beforeFirstChar (c : Char) : PyStr → Option PyStr
  | [] => none
  | x :: rest => if x = c then some [] else (beforeFirstChar c rest).map (x :: ·)

def isPyDigit (c : Char) : Bool := ('0' ≤ c) && (c ≤ '9')

/-- ASCII whitespace, as Python `str.strip()` removes. -/
def isPySpace (c : Char) : Bool :=
  c = ' ' || c = '\t' || c = '\n' || c = '\r' || c = '\x0b' || c = '\x0c'

def pyStrip (s : PyStr) : PyStr :=
  ((s.dropWhile isPySpace).reverse.dropWhile isPySpace).reverse

def digitsAux (acc : Nat) : PyStr → Nat
  | [] => acc
  | c :: cs => digitsAux (10 * acc + (c.toNat - 48)) cs

def digitsToNat (s : PyStr) : Option Nat :=
  if s.isEmpty || !(s.all isPyDigit) then none else some (digitsAux 0 s)

/-- Modelled from Python `int(str)`: whitespace stripped, one optional
sign, then a non-empty run of decimal digits; `none` models the
`ValueError` raised on anything else.  (Python's underscore digit
separators are not modelled.) -/
def pyIntParse (s0 : PyStr) : Option Int :=
  match pyStrip s0 with
  | '+' :: rest => (digitsToNat rest).map (fun n => (n : Int))
  | '-' :: rest => (digitsToNat rest).map (fun n => -(n : Int))
  | s => (digitsToNat s).map (fun n => (n : Int))

/-- Embedding of `helpers.get_tidy_major_version`, as a function of the
stdout of `<tidy_binary> --version` (the `shell_execute` call is abstracted
to that stdout).  `some v` when the code returns `v` — including `some 0`
for the two `ValueError`s from `str.index` that the code catches — and
`none` when `int()` raises an uncaught `ValueError` (helpers.py:140). -/
def get_tidy_major_version (version_output : PyStr) : Option Int :=
  match afterFirstSub ("version ".toList) version_output with
  | none => some 0
  | some rest =>
    match beforeFirstChar '.' rest with
    | none => some 0
    | some major => pyIntParse major

/-- **C4.** The two documented parses hold — the example version banner
yields major 15, and a banner without a `"version "` substring yields 0 —
but the claim that every parse failure yields 0 does not: a banner whose
text between `"version "` and the next `'.'` is not an integer makes
`int()` raise an uncaught `ValueError` (modelled `none`), failing the run,
against the function's own comment `Returns tidy major version number or 0
on failure` (helpers.py:123). -/
theorem get_tidy_major_version_cases :
    get_tidy_major_version ("Ubuntu LLVM version 15.0.7\n  Optimized build.".toList)
      = some 15 ∧
    get_tidy_major_version ("clang-tidy, no banner here".toList) = some 0 ∧
    get_tidy_major_version ("Ubuntu LLVM version x.5".toList) = none := by
  refine ⟨?_, ?_, ?_⟩ <;> decide

/-! ## Environment probing: `helpers.pick_tidy_binary` (helpers.py 55-109),
`helpers.find_build_path` (helpers.py 159-182), and the driver
`static_analysis.py` -/

/-- The process environment the scripts probe: the stripped stdout of the
two git queries, `shutil.which('clang-tidy')`, `os.path.isfile`,
`os.cpu_count()` (`none` models Python `None`), the working directory, the
stdout of `<binary> --version` (`none` models the `None` timeout
sentinel), the `"file"` fields of the compilation database found at a
build path (`none` when `compile_commands.json` cannot be opened or parsed
there), and the recursive glob of `find_build_path` (the directory of the
first `compile_commands.json` under a root, `none` when there is none). -/
structure Env where
  git_branch : PyStr
  git_toplevel : PyStr
  which_clang_tidy : Option PyStr
  isfile : PyStr → Bool
  cpu_count : Option Nat
  cwd : PyStr
  version_stdout : PyStr → Option PyStr
  compile_db : PyStr → Option (List PyStr)
  glob_build : PyStr → Option PyStr

/-- `helpers.is_official_tool` (helpers.py:50-52): v15 for all targets. -/
def is_official_tool (_scan_tree : Bool) (_git_branch : PyStr) (version : Int) : Bool :=
  version == 15

def llvm17DiffScript : PyStr := "/opt/llvm-17.0.1/share/clang/clang-tidy-diff.py".toList

def llvm15DiffScript : PyStr := "/opt/llvm-15.0.7/share/clang/clang-tidy-diff.py".toList

def usrShareDiffScript : PyStr := "/usr/share/clang/clang-tidy-diff.py".toList

def usrBinClangTidy : PyStr := "/usr/bin/clang-tidy".toList

def mysqlTrunk : PyStr := "mysql-trunk".toList

/-- What a `pick_tidy_binary` call returns and does: the selected binary
and diff script (Python `None` as `none`), whether the auto-detection
branch probed `clang-tidy --version`, and whether the unofficial-version
warning was emitted. -/
structure PickResult where
  tidy_binary : Option PyStr
  tidy_diff_script : Option PyStr
  probed_version : Bool
  warned_unofficial : Bool
deriving DecidableEq

/-- `get_tidy_major_version` as invoked on a binary (helpers.py:129):
`shell_execute` of `--version` may yield the `None` stdout sentinel on
timeout, on which `version.index` raises `AttributeError` (`none`). -/
def probe_major_version (env : Env) (bin : PyStr) : Option Int :=
  match env.version_stdout bin with
  | none => none
  | some out => get_tidy_major_version out

/-- Embedding of `helpers.pick_tidy_binary` (helpers.py:55-109).  A `none`
result models an uncaught exception escaping from the version probe. -/
def pick_tidy_binary (env : Env) (tidy_binary tidy_diff_script : Option PyStr)
    (scan_tree no_warn : Bool) : Option PickResult :=
  if env.git_branch.isEmpty && env.git_toplevel.isEmpty && !scan_tree then
    some ⟨none, none, false, false⟩
  else
    let binStep : Option (Option PyStr × Bool × Bool) :=
      match tidy_binary with
      | none =>
        let tb : Option PyStr :=
          match env.which_clang_tidy with
          | none => none
          | some w => if w.isEmpty || !(env.isfile w) then none else some w
        match tb with
        | some q =>
          if !no_warn then
            match probe_major_version env q with
            | none => none
            | some v =>
              some (some q, true, !(is_official_tool scan_tree env.git_branch v))
          else some (some q, false, false)
        | none => some (none, false, false)
      | some q =>
        if env.isfile q then some (some q, false, false) else some (none, false, false)
    match binStep with
    | none => none
    | some (tb, probed, warned) =>
      let tds : Option PyStr :=
        match tidy_diff_script with
        | some q => if env.isfile q then some q else none
        | none =>
          let s1 : Option PyStr :=
            if env.git_branch.isEmpty || env.git_branch == mysqlTrunk then
              some llvm17DiffScript
            else none
          let s2 : Option PyStr :=
            if !(pyTruthy s1) || !(env.isfile (s1.getD [])) then some llvm15DiffScript
            else s1
          let s3 : Option PyStr :=
            if !(pyTruthy s2) || !(env.isfile (s2.getD [])) then
              (if tb == some usrBinClangTidy then some usrShareDiffScript else s2)
            else s2
          if !(pyTruthy s3) || !(env.isfile (s3.getD [])) then none else s3
      some ⟨tb, tds, probed, warned⟩

/-- `helpers.detect_source_root_dir` (helpers.py:112-119): the git top
directory, falling back to the current working directory. -/
def detect_source_root_dir (env : Env) : PyStr :=
  if env.git_toplevel.isEmpty then env.cwd else env.git_toplevel

/-- `os.path.join(a, b)` for the fixed relative second components used
here (no absolute second component, no trailing separator on `a`). -/
def pathJoin (a b : PyStr) : PyStr := a ++ ('/' :: b)

def compileCommandsJson : PyStr := "compile_commands.json".toList

/-- Embedding of `helpers.find_build_path` (helpers.py:159-182): the
current directory (returned as `'.'`) when it holds
`compile_commands.json`; else `<root>/bld`; else the directory of the
first `compile_commands.json` found by the recursive glob (the
`env.glob_build` oracle); else `None`. -/
def find_build_path (env : Env) (repo_root : PyStr) : Option PyStr :=
  if env.isfile (pathJoin env.cwd compileCommandsJson) then some ['.']
  else
    let rr := if repo_root.isEmpty then env.git_toplevel else repo_root
    let bld := pathJoin rr ("bld".toList)
    if env.isfile (pathJoin bld compileCommandsJson) then some bld
    else env.glob_build rr

/-- The parsed command line (the argparse result of static_analysis.py:
38-71).  `scan_commit` is `some ref` when `--commit [ref]` was given
(`'HEAD'` when the flag stands alone); argparse makes `--tree` and
`--commit` mutually exclusive. -/
structure Args where
  verbose : Bool
  build_path : Option PyStr
  clang_tidy : Option PyStr
  clang_tidy_diff : Option PyStr
  jobs : Int
  scan_root : Option PyStr
  nowarn : Bool
  scan_tree : Bool
  scan_commit : Option PyStr
deriving DecidableEq

/-- The configuration `parse_arguments` leaves behind on success. -/
structure Config where
  clang_tidy : Option PyStr
  clang_tidy_diff : Option PyStr
  jobs : Int
  build_path : PyStr
  scan_root : Option PyStr
  scan_tree : Bool
  scan_commit : Option PyStr
  repo_root : PyStr
deriving DecidableEq

/-- How a Python call ends: normally, via `sys.exit(code)`, or with an
uncaught exception (on which the interpreter exits with status 1). -/
inductive PyResult (α : Type) where
  | ok (a : α)
  | exitWith (code : Int)
  | exception

/-- Embedding of `static_analysis.parse_arguments`
(static_analysis.py:38-109), after argparse: validate the scan target,
resolve the tools via `pick_tidy_binary`, detect the source root (tree
mode only), derive the job count (`int(os.cpu_count() / 3)`, a `TypeError`
when `os.cpu_count()` is `None`), resolve the build path, and reject
`--scan-root` without `--tree`. -/
def parse_arguments (env : Env) (a : Args) : PyResult Config :=
  if !a.scan_tree && !(pyTruthy a.scan_commit) then .exitWith 1
  else
    match pick_tidy_binary env a.clang_tidy a.clang_tidy_diff a.scan_tree a.nowarn with
    | none => .exception
    | some pick =>
      let repo_root := if a.scan_tree then detect_source_root_dir env else []
      if a.scan_tree && repo_root.isEmpty then .exitWith 1
      else
        match (if a.jobs ≤ 0 then env.cpu_count.map (fun c => ((c / 3 : Nat) : Int))
               else some a.jobs) with
        | none => .exception
        | some jobs =>
          match (if pyTruthy a.build_path then a.build_path
                 else find_build_path env repo_root) with
          | none => .exitWith 1
          | some build_path =>
            if pyTruthy a.scan_root && !a.scan_tree then .exitWith 1
            else .ok ⟨pick.tidy_binary, pick.tidy_diff_script, jobs, build_path,
                      a.scan_root, a.scan_tree, a.scan_commit, repo_root⟩

/-- Embedding of `static_analysis.run_static_analysis`
(static_analysis.py:112-126) as (exit-status contribution, number of
external analyzer invocations attempted).  Tree mode invokes clang-tidy
once per batch (`pool.map(run_tidy, batched(files, TIDY_BATCH))`); commit
mode builds one piped diff command and runs it once.  A missing tool is
the fatal `ERROR:` with exit 1 before any invocation; a missing or
unreadable compilation database makes `list_sources` raise, exiting the
interpreter with status 1. -/
def run_static_analysis (env : Env) (cfg : Config) : Int × Nat :=
  if cfg.scan_tree then
    match cfg.clang_tidy with
    | none => (1, 0)
    | some _ =>
      match env.compile_db cfg.build_path with
      | none => (1, 0)
      | some db =>
        (0, (batched TIDY_BATCH (list_sources env.isfile db cfg.scan_root)).length)
  else
    match cfg.clang_tidy_diff with
    | none => (1, 0)
    | some _ => (0, 1)

/-- `static_analysis.main` (static_analysis.py:129-135): the process exit
status and the number of analyzer invocations attempted. -/
def static_analysis_main (env : Env) (a : Args) : Int × Nat :=
  match parse_arguments env a with
  | .exitWith c => (c, 0)
  | .exception => (1, 0)
  | .ok cfg => run_static_analysis env cfg

/-- A concrete environment for C8: a git checkout on branch `main`, every
probed path exists, 4 CPUs, an empty compilation database everywhere. -/
def cexEnv : Env :=
  ⟨"main".toList, "/r".toList, none, fun _ => true, some 4, "/r".toList,
   fun _ => some [], fun _ => some [], fun _ => none⟩

/-- `--commit HEAD --scan-root '' --clang-tidy /ct --clang-tidy-diff /ctd
-p /bld -j 4`: both `--commit` and `--scan-root` supplied, the latter with
an empty-string value. -/
def cexArgs : Args :=
  ⟨false, some "/bld".toList, some "/ct".toList, some "/ctd".toList, 4,
   some [], false, false, some "HEAD".toList⟩

/-- **C8, counterexample.**  With both `--commit` and `--scan-root`
supplied, `--scan-root` holding the empty string (falsy in Python, so the
conflict check `args.scan_root and not args.scan_tree` does not fire), the
program is not rejected: it proceeds into commit mode, attempts one
analyzer invocation and exits 0 — not exit 1 with no invocation. -/
theorem commit_scan_root_counterexample :
    cexArgs.scan_commit.isSome = true ∧ cexArgs.scan_root.isSome = true ∧
    static_analysis_main cexEnv cexArgs = (0, 1) ∧
    static_analysis_main cexEnv cexArgs ≠ ((1 : Int), (0 : Nat)) := by
  have h : static_analysis_main cexEnv cexArgs = (0, 1) := by rfl
  refine ⟨rfl, rfl, h, ?_⟩
  rw [h]
  decide

/-- **C8 (amended).**  In every environment, an invocation without
`--tree` (in particular any with `--commit`, which argparse makes
exclusive with `--tree`) and with `--scan-root` supplied with a non-empty
value exits with status 1 — at the `--scan-root`/`--commit` conflict
check, or at an earlier fatal configuration error or crash, each of which
also yields exit status 1 — and attempts no analyzer invocation.  (An
empty-string `--scan-root` escapes the check; see the counterexample.) -/
theorem commit_with_scan_root_rejected (env : Env) (a : Args)
    (htree : a.scan_tree = false) (hroot : pyTruthy a.scan_root = true) :
    static_analysis_main env a = (1, 0) := by
  have hp : parse_arguments env a = PyResult.exitWith 1 ∨
      parse_arguments env a = PyResult.exception := by
    rw [parse_arguments]
    simp only [htree, hroot, Bool.not_false, Bool.true_and, Bool.false_and,
      Bool.and_true, Bool.not_true, Bool.and_false, if_true, if_false]
    repeat' split
    all_goals first | exact Or.inl rfl | exact Or.inr rfl
  rw [static_analysis_main]
  rcases hp with h | h <;> rw [h]

/-- Witness for the amended C8: a concrete invocation with `--commit HEAD`
and the non-empty `--scan-root /src`. -/
theorem commit_with_scan_root_rejected_witness :
    static_analysis_main cexEnv
      ⟨false, some "/bld".toList, some "/ct".toList, some "/ctd".toList, 4,
       some "/src".toList, false, false, some "HEAD".toList⟩ = (1, 0) :=
  commit_with_scan_root_rejected cexEnv _ rfl (by decide)

/-- **C10.**  When the user explicitly supplies a clang-tidy binary path,
`pick_tidy_binary` performs no version probe and never emits the
unofficial-version warning (the probe runs only in the auto-detection
branch), and returns normally with no path-specific diagnostic, an
explicitly supplied path that is not an existing file silently replaced by
`None`; a tree-mode run whose resolved binary is `None` then hits the
fatal missing-binary error later — exit 1, zero analyzer invocations. -/
theorem pick_tidy_binary_explicit_path (env : Env) (p : PyStr)
    (tds0 : Option PyStr) (scan_tree no_warn : Bool) :
    (∃ r : PickResult,
      pick_tidy_binary env (some p) tds0 scan_tree no_warn = some r ∧
      r.probed_version = false ∧ r.warned_unofficial = false ∧
      (env.isfile p = false → r.tidy_binary = none)) ∧
    (∀ cfg : Config, cfg.scan_tree = true → cfg.clang_tidy = none →
      run_static_analysis env cfg = (1, 0)) := by
  constructor
  · simp only [pick_tidy_binary]
    split
    · exact ⟨⟨none, none, false, false⟩, rfl, rfl, rfl, fun _ => rfl⟩
    · by_cases hf : env.isfile p
      · rw [if_pos hf]
        exact ⟨_, rfl, rfl, rfl, fun h => by rw [h] at hf; exact Bool.noConfusion hf⟩
      · rw [if_neg hf]
        exact ⟨_, rfl, rfl, rfl, fun _ => rfl⟩
  · intro cfg h1 h2
    rw [run_static_analysis, h1, h2]
    rfl

end StaticAnalysis
